import Mathlib

/-!
Verification development for the tool-calling conversation engine of
`mcp_open_client`: the token-budget rolling window and tool-call integrity
repair (`core/conversations/token_counter.py`), the chat message assembly
(`core/conversations/chat_ops.py`), tool preparation and execution
(`api/endpoints/conversations/tool_execution.py`), the endpoint-level window
helper (`api/endpoints/conversations/token_management.py`) and the bounded
tool dispatch loop (`api/endpoints/conversations/chat_endpoints.py`).

Messages travel through the Python code as dictionaries.  Every dictionary
this engine builds or reads uses at most the keys `role`, `content`,
`tool_calls`, `tool_call_id` and `name`; the model below is a structure with
one optional field per key (`none` standing both for an absent key and for a
Python `None` value, which the code treats identically everywhere it looks).
A tool-call entry inside `tool_calls` is modelled by its optional `"id"`
field: the integrity scan only reads `tool_call["id"]` (guarded by
`isinstance(tool_call, dict) and "id" in tool_call`), and the token counter
serializes the whole list opaquely through an abstract `dumps` function.
The tiktoken encoding of a string is likewise external data; it enters every
definition as an abstract `enc : String → Nat` (the length of the encoded
form), one `enc` per model name.
-/

/-- One tool-call entry of an assistant message's `tool_calls` list:
`some i` models a dict entry carrying `"id": i`, `none` models an entry
that is not a dict or has no `"id"` key. -/
abbrev ToolCallEntry : Type := Option String

/-- A chat message dictionary, one optional field per key the engine uses. -/
structure Msg where
  role : Option String := none
  content : Option String := none
  tool_calls : Option (List ToolCallEntry) := none
  tool_call_id : Option String := none
  name : Option String := none
  deriving Repr, DecidableEq

/-- Python truthiness of `message.get("tool_calls")`: a non-empty list. -/
def Msg.hasToolCalls (m : Msg) : Bool :=
  match m.tool_calls with
  | some (_ :: _) => true
  | _ => false

/-- `verified[i].get("role") == "assistant" and verified[i].get("tool_calls")`,
the predicate of the removal loops in `_verify_tool_integrity`. -/
def Msg.isAsstWithCalls (m : Msg) : Bool :=
  m.role == some "assistant" && m.hasToolCalls

/-- The ids collected from a `tool_calls` list: Python adds `tool_call["id"]`
to the pending set for every entry that is a dict with an `"id"` key. -/
def idsOfToolCalls (tcs : List ToolCallEntry) : List String :=
  tcs.filterMap (fun tc => (tc : Option String))

/-- Removes the LAST element satisfying `Msg.isAsstWithCalls`, mirroring
`for i in range(len(verified)-1, -1, -1): ... verified.pop(i); break`. -/
def popLastAsstWithCalls (l : List Msg) : List Msg :=
  (l.reverse.eraseP Msg.isAsstWithCalls).reverse

/-- State of the forward scan of `_verify_tool_integrity`: the kept output
so far and the pending tool-call ids.  The Python pending set is modelled
as a list observed only through membership, emptiness and remove-all
(`List.filter`), which coincide with set semantics. -/
structure VTIState where
  verified : List Msg
  active : List String
  deriving Repr, DecidableEq

/-- One step of the forward scan of `TokenCounter._verify_tool_integrity`
(token_counter.py lines 105-173), one branch per `role` case. -/
def vtiStep (s : VTIState) (m : Msg) : VTIState :=
  if m.role == some "assistant" then
    match m.tool_calls with
    | some (tc :: tcs) =>
      { verified := s.verified ++ [m], active := idsOfToolCalls (tc :: tcs) }
    | _ =>
      if s.active.isEmpty then
        { verified := s.verified ++ [m], active := s.active }
      else
        { verified := popLastAsstWithCalls s.verified ++ [m], active := [] }
  else if m.role == some "tool" then
    match m.tool_call_id with
    | some tid =>
      if tid ≠ "" ∧ tid ∈ s.active then
        { verified := s.verified ++ [m], active := s.active.filter (· ≠ tid) }
      else s
    | none => s
  else if m.role == some "user" then
    if s.active.isEmpty then
      { verified := s.verified ++ [m], active := s.active }
    else
      { verified := popLastAsstWithCalls s.verified ++ [m], active := [] }
  else { verified := s.verified ++ [m], active := s.active }

/-- `TokenCounter._verify_tool_integrity`: the full forward scan followed by
the end-of-scan removal of the last assistant-with-tool_calls message when
pending ids remain (token_counter.py lines 92-191). -/
def verify_tool_integrity (messages : List Msg) : List Msg :=
  let s := messages.foldl vtiStep ⟨[], []⟩
  if s.active.isEmpty then s.verified else popLastAsstWithCalls s.verified

/-- Shorthand constructors for concrete scenarios. -/
def asstMsg (ids : List String) : Msg :=
  { role := some "assistant", content := some "",
    tool_calls := some (ids.map (fun i => (some i : Option String))) }

def toolMsg (tid : String) : Msg :=
  { role := some "tool", content := some "", tool_call_id := some tid }

def userMsg (text : String) : Msg :=
  { role := some "user", content := some text }

/-!
Token counting.  `enc s` models `len(encoding.encode(s))` for the encoding
selected for the model (`_get_encoding`); `dumps` models `json.dumps` on a
`tool_calls` list.  Both are external (tiktoken tables / the json library),
so they are parameters of every definition.
-/

/-- The per-message token cost computed identically by
`count_message_tokens` (lines 36-49) and `_safe_apply_max_tokens`
(lines 225-237): `tokens_per_message = 3` plus, for every key whose value
is not `None`, the encoded length of the value's textual form, plus
`tokens_per_name = 1` when the key is `"name"`. -/
def msgTokens (enc : String → Nat) (dumps : List ToolCallEntry → String)
    (m : Msg) : Nat :=
  3 + (match m.role with | some s => enc s | none => 0)
    + (match m.content with | some s => enc s | none => 0)
    + (match m.tool_calls with | some l => enc (dumps l) | none => 0)
    + (match m.tool_call_id with | some s => enc s | none => 0)
    + (match m.name with | some s => enc s + 1 | none => 0)

/-- `TokenCounter.count_message_tokens` (token_counter.py lines 25-53):
the per-message costs accumulated by the loop, plus 3 priming tokens. -/
def count_message_tokens (enc : String → Nat)
    (dumps : List ToolCallEntry → String) (messages : List Msg) : Nat :=
  (messages.foldl (fun acc m => acc + msgTokens enc dumps m) 0) + 3

/-- `TokenCounter._safe_apply_max_messages` (lines 193-206).  The Python
slice `messages[-max_messages:]` keeps the newest `max_messages` elements,
except that `-0 == 0` makes `messages[-0:]` the whole list. -/
def safe_apply_max_messages (max_messages : Nat) (messages : List Msg) :
    List Msg :=
  if messages.length ≤ max_messages then messages
  else
    let trimmed :=
      if max_messages = 0 then messages
      else messages.drop (messages.length - max_messages)
    verify_tool_integrity trimmed

/-- The newest-to-oldest accumulation loop of `_safe_apply_max_tokens`
(lines 218-246), acting on the reversed message list: keep each message
while `current_tokens + msg_tokens` stays within `max_tokens`, stop at the
first message that would exceed. -/
def takeWithinBudget (enc : String → Nat)
    (dumps : List ToolCallEntry → String) (max_tokens : Nat) :
    Nat → List Msg → List Msg
  | _, [] => []
  | current, m :: rest =>
    if max_tokens < current + msgTokens enc dumps m then []
    else m :: takeWithinBudget enc dumps max_tokens
      (current + msgTokens enc dumps m) rest

/-- `TokenCounter._safe_apply_max_tokens` (lines 208-250): walk from newest
to oldest starting from the 3 priming tokens (the kept messages are
re-assembled oldest-first by `filtered.insert(0, ...)`), then re-run the
integrity scan. -/
def safe_apply_max_tokens (enc : String → Nat)
    (dumps : List ToolCallEntry → String) (max_tokens : Nat)
    (messages : List Msg) : List Msg :=
  verify_tool_integrity
    ((takeWithinBudget enc dumps max_tokens 3 messages.reverse).reverse)

/-- `TokenCounter.apply_rolling_window` (token_counter.py lines 55-90):
early return `(messages, 0)` on an empty input, otherwise integrity scan,
optional message-count trim, optional token trim, final integrity scan,
and the token count of the result. -/
def apply_rolling_window (enc : String → Nat)
    (dumps : List ToolCallEntry → String) (max_tokens : Option Nat)
    (max_messages : Option Nat) (messages : List Msg) :
    List Msg × Nat :=
  if messages.isEmpty then (messages, 0)
  else
    let m1 := verify_tool_integrity messages
    let m2 := match max_messages with
      | some mm => if mm < m1.length then safe_apply_max_messages mm m1 else m1
      | none => m1
    let m3 := match max_tokens with
      | some mt => safe_apply_max_tokens enc dumps mt m2
      | none => m2
    let m4 := verify_tool_integrity m3
    (m4, count_message_tokens enc dumps m4)

/-!
Conversation data and message assembly (`core/conversations/chat_ops.py`).
The persistence collaborator (`ConversationStorage.load`) is external to the
core per the spec's interface section; it is modelled as an abstract
`load : String → Option Conversation`.  Only the conversation fields read by
the embedded code are modelled.
-/

/-- A context item as read by `ChatOperations.prepare_messages`. -/
structure ContextItem where
  descriptive_name : String
  content : String
  related_keywords : List String
  related_files : List String
  deriving Repr, DecidableEq

/-- An enabled tool: server id plus tool name. -/
structure EnabledTool where
  server_id : String
  tool_name : String
  deriving Repr, DecidableEq

/-- A stored conversation message as read by `prepare_messages` (`msg.role`,
`msg.content`). -/
structure StoredMsg where
  role : String
  content : Option String
  deriving Repr, DecidableEq

/-- The conversation fields the embedded core reads.  `context` keeps the
dict's insertion order (Python dicts iterate in insertion order). -/
structure Conversation where
  system_prompt : String
  context : List (String × ContextItem)
  messages : List StoredMsg
  enabled_tools : List EnabledTool
  max_tokens : Option Nat
  max_messages : Option Nat
  deriving Repr, DecidableEq

/-- One rendered context block of the system prompt (chat_ops.py
lines 37-46). -/
def renderContextItem (ci : ContextItem) : String :=
  "### " ++ ci.descriptive_name ++ "\n"
    ++ (if ci.related_keywords.isEmpty then ""
        else "Keywords: " ++ String.intercalate ", " ci.related_keywords ++ "\n")
    ++ (if ci.related_files.isEmpty then ""
        else "Related files: " ++ String.intercalate ", " ci.related_files ++ "\n")
    ++ "\n" ++ ci.content ++ "\n\n"

/-- The system prompt built by `prepare_messages` (lines 30-47): the stored
prompt, plus a context section when the context dict is non-empty. -/
def buildSystemPrompt (conv : Conversation) : String :=
  if conv.context.isEmpty then conv.system_prompt
  else conv.system_prompt
    ++ conv.context.foldl (fun acc p => acc ++ renderContextItem p.2)
        "\n\n## Context Information\n\n"

/-- The projection `\x7b"role": msg.role, "content": msg.content\x7d`
applied to each stored message (chat_ops.py line 54). -/
def projStoredMsg (m : StoredMsg) : Msg :=
  { role := some m.role, content := m.content }

/-- `ChatOperations.prepare_messages` (chat_ops.py lines 17-59): `None` when
the conversation does not exist, otherwise the system prompt, the projected
history plus one new user message, and the enabled-tool list. -/
def prepare_messages (load : String → Option Conversation)
    (conversation_id : String) (new_user_message : String) :
    Option (String × List Msg × List EnabledTool) :=
  match load conversation_id with
  | none => none
  | some conv =>
    let messages_for_llm :=
      conv.messages.foldl (fun acc m => acc ++ [projStoredMsg m]) []
    some (buildSystemPrompt conv,
      messages_for_llm ++ [userMsg new_user_message],
      conv.enabled_tools)

/-- Python truthiness of an optional integer field (`0` and `None` are both
falsy), as used by `if conversation.max_tokens or conversation.max_messages`. -/
def optNatTruthy : Option Nat → Bool
  | some n => n != 0
  | none => false

/-- The endpoint-level `apply_rolling_window` of token_management.py
(lines 14-44): messages pass through untouched when the conversation is
absent or has no budget configured; otherwise the token-counter window (when
a budget field is truthy) or a plain count. -/
def tm_apply_rolling_window (load : String → Option Conversation)
    (enc : String → Nat) (dumps : List ToolCallEntry → String)
    (conversation_id : String) (messages_for_llm : List Msg) :
    List Msg × Nat × Nat :=
  match load conversation_id with
  | none => (messages_for_llm, messages_for_llm.length * 50,
      messages_for_llm.length)
  | some conv =>
    if optNatTruthy conv.max_tokens || optNatTruthy conv.max_messages then
      let r := apply_rolling_window enc dumps conv.max_tokens
        conv.max_messages messages_for_llm
      (r.1, r.2, r.1.length)
    else
      (messages_for_llm, count_message_tokens enc dumps messages_for_llm,
        messages_for_llm.length)

/-!
Tool preparation and execution (`api/endpoints/conversations/tool_execution.py`).
The server registry (`server_manager.get_server`, `get_server_tools`,
`call_server_tool`) and Python's `json` module are external collaborators and
enter as parameters.  SSE event emissions are wrapped in their own
try/except in the source and never influence a return value, so they are
omitted.  JSON argument objects are modelled as association lists from key
to an opaque serialized value string.
-/

/-- Assoc-list read modelling Python `d.get(k)`. -/
def dictGet {α : Type} (l : List (String × α)) (k : String) : Option α :=
  (l.find? (fun p => p.1 == k)).map (fun p => p.2)

/-- Assoc-list write modelling Python `d[k] = v`: replaces the value in
place when the key exists (dict keys are unique, so the first occurrence
is the occurrence), appends otherwise. -/
def dictSet {α : Type} : List (String × α) → String → α → List (String × α)
  | [], k, v => [(k, v)]
  | p :: rest, k, v =>
    if p.1 == k then (k, v) :: rest else p :: dictSet rest k v

/-- A JSON-schema property value; the two injected properties carry a type
and a description, pre-existing properties are arbitrary values of the same
shape. -/
structure PropDef where
  type_tag : String
  description : String
  deriving Repr, DecidableEq

/-- A tool input schema as manipulated by
`inject_required_context_arguments`: the `properties` and `required` keys
(absent or present), and the remaining keys as opaque pairs. -/
structure InputSchema where
  properties : Option (List (String × PropDef)) := none
  required : Option (List String) := none
  rest : List (String × String) := []
  deriving Repr, DecidableEq

/-- The literal default schema used when the incoming schema is falsy. -/
def defaultSchema : InputSchema :=
  { properties := some [], required := none, rest := [("type", "object")] }

def toolUsageReasonProp : PropDef :=
  { type_tag := "string",
    description := "¿Para qué estás usando esta herramienta? Explica brevemente el propósito y contexto de uso." }

def errorHandlingPlanProp : PropDef :=
  { type_tag := "string",
    description := "¿Qué debes hacer en caso de error? Describe tu plan de contingencia si la herramienta falla." }

/-- `inject_required_context_arguments` (tool_execution.py lines 24-57).
The argument models `tool.input_schema or ...` at the call site: `none`
covers both a missing schema and an empty (falsy) dict, for which the
source substitutes the default schema. -/
def inject_required_context_arguments (input_schema : Option InputSchema) :
    InputSchema :=
  let base := match input_schema with
    | none => defaultSchema
    | some sch => sch
  let props := match base.properties with
    | some ps => ps
    | none => []
  let props := dictSet props "tool_usage_reason" toolUsageReasonProp
  let props := dictSet props "error_handling_plan" errorHandlingPlanProp
  let req := match base.required with
    | some r => r
    | none => []
  let req := if "tool_usage_reason" ∈ req then req
    else req ++ ["tool_usage_reason"]
  let req := if "error_handling_plan" ∈ req then req
    else req ++ ["error_handling_plan"]
  { base with properties := some props, required := some req }

/-- A server as observed by `prepare_tools_for_llm`: only
`server.status.value` is read. -/
structure ServerInfo where
  status : String
  deriving Repr, DecidableEq

/-- A tool declared by a server (`tool.name`, `tool.description`,
`tool.input_schema`); `input_schema = none` covers both `None` and an
empty dict (the two falsy cases collapsed by `or` at the use site). -/
structure MCPTool where
  name : String
  description : Option String
  input_schema : Option InputSchema
  deriving Repr, DecidableEq

/-- One entry of `tools_for_llm`: the constant wrapper
`"type": "function"` is implicit, the `function` payload is kept. -/
structure ToolForLLM where
  name : String
  description : String
  parameters : InputSchema
  deriving Repr, DecidableEq

/-- `prepare_tools_for_llm` (tool_execution.py lines 60-100): per enabled
tool, skip when the server is absent or not running, skip when listing the
server's tools fails, keep the first declared tool matching the enabled
name (`break`), inject the two synthetic schema fields, append the tool
spec and write the name-to-server mapping with a plain dict assignment. -/
def prepareToolsStep (get_server : String → Option ServerInfo)
    (get_server_tools : String → Except Unit (List MCPTool))
    (acc : List ToolForLLM × List (String × String)) (et : EnabledTool) :
    List ToolForLLM × List (String × String) :=
  match get_server et.server_id with
  | none => acc
  | some srv =>
    if srv.status != "running" then acc
    else
      match get_server_tools et.server_id with
      | .error _ => acc
      | .ok server_tools =>
        match server_tools.find? (fun t => t.name == et.tool_name) with
        | none => acc
        | some t =>
          (acc.1 ++ [{ name := t.name,
                       description := (t.description.getD ""),
                       parameters :=
                         inject_required_context_arguments t.input_schema }],
           dictSet acc.2 t.name et.server_id)

def prepare_tools_for_llm (get_server : String → Option ServerInfo)
    (get_server_tools : String → Except Unit (List MCPTool))
    (enabled_tools : List EnabledTool) :
    List ToolForLLM × List (String × String) :=
  enabled_tools.foldl (prepareToolsStep get_server get_server_tools) ([], [])

/-- One item of a list-shaped tool result, mirroring the three branches of
the item loop in `convert_tool_result_to_string`: an object with a `text`
attribute, a dict with a `"text"` key, or anything else (kept as its
`str()` form). -/
inductive RawItem where
  | attrText (t : String)
  | dictText (t : String)
  | plain (s : String)
  deriving Repr, DecidableEq

/-- The string a single item contributes. -/
def rawItemText : RawItem → String
  | .attrText t => t
  | .dictText t => t
  | .plain s => s

/-- A raw tool result, one constructor per `isinstance`/`hasattr` branch of
`convert_tool_result_to_string` (tool_execution.py lines 103-136), in the
source's dispatch order: a list, an object with a `content` attribute
holding a list, an object with a non-list `content` (kept as `str()`), an
object with a `text` attribute, a scalar (its `str()` form), a dict, and
anything else (its `str()` form). -/
inductive RawResult where
  | items (l : List RawItem)
  | contentItems (l : List RawItem)
  | contentOther (s : String)
  | attrText (t : String)
  | scalar (s : String)
  | dict (d : List (String × String))
  | other (s : String)
  deriving Repr, DecidableEq

/-- A flat rendering of `json.dumps` on a string-valued dict (escaping
omitted; no theorem inspects the characters of these payloads). -/
def jsonDumpsObj (d : List (String × String)) : String :=
  "\x7b" ++ String.intercalate ", "
    (d.map (fun p => "\"" ++ p.1 ++ "\": \"" ++ p.2 ++ "\"")) ++ "\x7d"

/-- `convert_tool_result_to_string` (tool_execution.py lines 103-136). -/
def convert_tool_result_to_string : RawResult → String
  | .items l => String.join (l.map rawItemText)
  | .contentItems l => String.join (l.map rawItemText)
  | .contentOther s => s
  | .attrText t => t
  | .scalar s => s
  | .dict d => jsonDumpsObj d
  | .other s => s

/-- `filter_context_arguments` (tool_execution.py lines 12-21): drop the
two synthetic LLM-only keys. -/
def filter_context_arguments (arguments : List (String × String)) :
    List (String × String) :=
  arguments.filter
    (fun p => p.1 != "tool_usage_reason" && p.1 != "error_handling_plan")

/-!
The `json.loads` model.  Python's `json` library is external; the claims
only need that loading either yields an argument object or raises.  The
executor below is therefore parameterized by an abstract
`parse : String → Option (List (String × String))` (`none` models a raised
`JSONDecodeError`).  For closed witnesses and counterexamples a concrete
instance follows: a parser for flat string-valued JSON objects, which
agrees with `json.loads` on the object literals used in the theorems and
fails on the malformed inputs used there.
-/

/-- Skip JSON whitespace. -/
def skipWs (cs : List Char) : List Char :=
  cs.dropWhile (fun c => c == ' ' || c == '\n' || c == '\t' || c == '\r')

/-- Read the remainder of a string literal (opening quote already
consumed); escape sequences are not accepted. -/
def readStringLit (cs : List Char) : Option (String × List Char) :=
  let body := cs.takeWhile (fun c => c != '"' && c != '\\')
  match cs.drop body.length with
  | '"' :: rest => some (String.mk body, rest)
  | _ => none

/-- Read the members of a flat string-valued object after the opening
brace, including the closing brace.  Fuel decreases on every recursive
call; it is initialized above the input length. -/
def readMembers : Nat → List Char → Option (List (String × String) × List Char)
  | 0, _ => none
  | fuel + 1, cs =>
    match skipWs cs with
    | '"' :: rest =>
      match readStringLit rest with
      | none => none
      | some (k, rest1) =>
        match skipWs rest1 with
        | ':' :: rest2 =>
          match skipWs rest2 with
          | '"' :: rest3 =>
            match readStringLit rest3 with
            | none => none
            | some (v, rest4) =>
              match skipWs rest4 with
              | ',' :: rest5 =>
                match readMembers fuel rest5 with
                | some (ms, r) => some ((k, v) :: ms, r)
                | none => none
              | '}' :: rest5 => some ([(k, v)], rest5)
              | _ => none
          | _ => none
        | _ => none
    | _ => none

/-- A concrete stand-in for `json.loads` restricted to flat string-valued
objects: `none` models a raised `JSONDecodeError`. -/
def jsonLoadsFlat (s : String) : Option (List (String × String)) :=
  match skipWs s.toList with
  | '{' :: rest =>
    match skipWs rest with
    | '}' :: rest1 => if (skipWs rest1).isEmpty then some [] else none
    | _ =>
      match readMembers (s.length + 1) rest with
      | some (ms, r) => if (skipWs r).isEmpty then some ms else none
      | none => none
  | _ => none

/-- The `\x7b"error": "..."\x7d` payload built by
`json.dumps(\x7b"error": error_msg\x7d)`. -/
def mkErrorPayload (msg : String) : String :=
  jsonDumpsObj [("error", msg)]

/-- The function payload of an OpenAI tool call
(`tool_call.function.name`, `tool_call.function.arguments`). -/
structure ToolCallFunction where
  name : String
  arguments : String
  deriving Repr, DecidableEq

/-- An OpenAI tool call as read by the endpoint code; the constant
`type` attribute is omitted. -/
structure ToolCallData where
  id : String
  function : ToolCallFunction
  deriving Repr, DecidableEq

/-- `execute_single_tool_call` (tool_execution.py lines 139-247), with the
external runtime `invoke` modelled as returning either a raw result or a
raised exception's message.  The returned value is `Except.error` exactly
when the Python function lets an exception escape: `json.loads` on
line 149 runs outside every try block, so a failed parse raises out of the
executor; every other failure (unknown or falsy server id, runtime
exception) is converted to a structured error payload and returned
normally. -/
def execute_single_tool_call (parse : String → Option (List (String × String)))
    (invoke : String → String → List (String × String) → Except String RawResult)
    (tool_call : ToolCallData) (tool_server_mapping : List (String × String)) :
    Except String String :=
  match parse tool_call.function.arguments with
  | none => .error "JSONDecodeError"
  | some tool_args =>
    let tool_name := tool_call.function.name
    match (dictGet tool_server_mapping tool_name).filter (fun s => s != "") with
    | none => .ok (mkErrorPayload ("Tool '" ++ tool_name ++ "' not found"))
    | some server_id =>
      match invoke server_id tool_name (filter_context_arguments tool_args) with
      | .ok raw => .ok (convert_tool_result_to_string raw)
      | .error e => .ok (mkErrorPayload e)

/-!
The tool dispatch loop of `conversation_chat`
(chat_endpoints.py lines 128-300).  The model provider
(`client.chat.completions.create`) is external: it enters as
`complete : Nat → List Msg → Except String ModelResp`, indexed by the
iteration number so a run can model a provider whose answers change across
calls; `Except.error` models a raised provider exception.  Message
persistence (`conversation_manager.add_message`) appends the same dicts
that are appended to `messages_for_llm`, so the running message list is the
observable state.  The per-iteration window is the embedded
`tm_apply_rolling_window`.  OpenAI's falsy check
`if response_message.tool_calls` collapses `None` and the empty list, so
the model response carries a plain list of tool calls.
-/

/-- A model completion: optional text content plus requested tool calls. -/
structure ModelResp where
  content : Option String
  tool_calls : List ToolCallData
  deriving Repr, DecidableEq

/-- Sequential execution of one iteration's tool calls
(chat_endpoints.py lines 203-231): one tool-role message per call, in call
order; a raised executor exception aborts the whole request. -/
def execAllToolCalls (execTool : ToolCallData → Except String String) :
    List ToolCallData → Except String (List Msg)
  | [] => .ok []
  | c :: cs =>
    match execTool c with
    | .error e => .error e
    | .ok tool_result =>
      match execAllToolCalls execTool cs with
      | .error e => .error e
      | .ok rest =>
        .ok ({ role := some "tool", content := some tool_result,
               tool_call_id := some c.id, name := some c.function.name } :: rest)

/-- The assistant message recorded for a tool-call response
(chat_endpoints.py lines 194-200): the model's content plus the tool-call
entries, kept by their ids in the message model. -/
def asstMsgOfResp (content : Option String) (tcs : List ToolCallData) : Msg :=
  { role := some "assistant", content := content,
    tool_calls := some (tcs.map (fun c => (some c.id : Option String))) }

/-- The body of `while iteration < max_iterations` (lines 134-284), with
fuel counting the remaining iterations and `it` the Python `iteration`
value before the `iteration += 1` at the loop head.  Returns the final
`assistant_message` value (set by BOTH the tool-call branch, line 184, and
the final-content branch, line 267), the running message list, and the last
window's token count and in-context message count. -/
def chat_loop_go (window : List Msg → List Msg × Nat × Nat)
    (complete : Nat → List Msg → Except String ModelResp)
    (execTool : ToolCallData → Except String String) :
    Nat → Nat → List Msg → Option Msg → Nat × Nat →
    Except String (Option Msg × List Msg × Nat × Nat)
  | 0, _, msgs, assistant_message, tcmic =>
    .ok (assistant_message, msgs, tcmic.1, tcmic.2)
  | fuel + 1, it, msgs, assistant_message, _ =>
    let w := window msgs
    match complete (it + 1) w.1 with
    | .error e => .error e
    | .ok resp =>
      match resp.tool_calls with
      | [] =>
        let content := resp.content.getD ""
        if 0 < content.trim.length then
          .ok (some { role := some "assistant", content := some content },
            w.1, w.2.1, w.2.2)
        else
          chat_loop_go window complete execTool fuel (it + 1)
            (w.1 ++ [{ role := some "assistant", content := some "" }])
            assistant_message (w.2.1, w.2.2)
      | tc :: tcs =>
        let amsg := asstMsgOfResp resp.content (tc :: tcs)
        match execAllToolCalls execTool (tc :: tcs) with
        | .error e => .error e
        | .ok toolMsgs =>
          chat_loop_go window complete execTool fuel (it + 1)
            (w.1 ++ amsg :: toolMsgs) (some amsg) (w.2.1, w.2.2)

/-- The observable outcome of `conversation_chat` after the loop: a fatal
HTTP 500 (either a propagated exception or the
`if not assistant_message` guard), or the success response carrying the
final assistant message. -/
inductive ChatOutcome where
  | fatal (detail : String)
  | success (assistant : Msg) (messages : List Msg)
      (token_count : Nat) (messages_in_context : Nat)
  deriving Repr, DecidableEq

/-- `conversation_chat`'s loop with its `max_iterations = 50` ceiling and
the post-loop guard (chat_endpoints.py lines 130-300). -/
def conversation_chat_loop (window : List Msg → List Msg × Nat × Nat)
    (complete : Nat → List Msg → Except String ModelResp)
    (execTool : ToolCallData → Except String String)
    (initial_messages : List Msg) : ChatOutcome :=
  match chat_loop_go window complete execTool 50 0 initial_messages none
      (0, 0) with
  | .error e => .fatal ("Failed to get LLM response: " ++ e)
  | .ok (none, _, _, _) =>
    .fatal "Failed to get final assistant response after tool calls"
  | .ok (some am, msgs, tc, mic) => .success am msgs tc mic

/-- Outcome discriminator: did the request fail with HTTP 500? -/
def ChatOutcome.isFatal : ChatOutcome → Bool
  | .fatal _ => true
  | .success _ _ _ _ => false

/-- The assistant message reported as final, when the request succeeded. -/
def ChatOutcome.finalAssistant : ChatOutcome → Option Msg
  | .fatal _ => none
  | .success am _ _ _ => some am

/-!
Counting predicates used to state output invariants of the integrity scan.
-/

/-- Is `m` a tool-role message answering call id `c`? -/
def isToolRespFor (c : String) (m : Msg) : Bool :=
  m.role == some "tool" && m.tool_call_id == some c

/-- How many surviving tool messages answer call id `c`? -/
def toolRespCount (c : String) (l : List Msg) : Nat :=
  l.countP (isToolRespFor c)

/-- Is `m` an assistant message whose non-empty tool-call list issues call
id `c` (the messages that reset the pending set to a set containing `c`)? -/
def asstIssue (c : String) (m : Msg) : Bool :=
  m.role == some "assistant" &&
    (match m.tool_calls with
     | some (tc :: tcs) => decide (c ∈ idsOfToolCalls (tc :: tcs))
     | _ => false)

/-- How many assistant messages of `l` issue call id `c`? -/
def asstIssueCount (c : String) (l : List Msg) : Nat :=
  l.countP (asstIssue c)

/-- Is `m` a tool-role message whose `tool_call_id` is absent or empty
(Python-falsy), which the scan always drops? -/
def badTool (m : Msg) : Bool :=
  m.role == some "tool" &&
    (match m.tool_call_id with
     | some s => s == ""
     | none => true)

/-- The scan invariant behind the per-issuer response bound: the surviving
responses for `c` plus the pending occurrence of `c` never exceed the
number of issuers seen, and no kept tool message has a falsy id. -/
def C10Inv (c : String) (bound : Nat) (s : VTIState) : Prop :=
  toolRespCount c s.verified + (if c ∈ s.active then 1 else 0) ≤ bound ∧
    s.verified.countP badTool = 0

/-!
Concrete collaborator instances used by closed counterexamples and
witnesses.
-/

/-- A conversation with no token or message budget configured. -/
def convNoBudget : Conversation :=
  { system_prompt := "sp", context := [], messages := [], enabled_tools := [],
    max_tokens := none, max_messages := none }

/-- The endpoint window for a stored budgetless conversation, with the
string-length encoding standing in for the tiktoken tables. -/
def c4window : List Msg → List Msg × Nat × Nat :=
  tm_apply_rolling_window (fun _ => some convNoBudget) String.length
    (fun _ => "") "conv-1"

/-- A tool call requesting tool `t` with the empty JSON object as
arguments. -/
def c4call : ToolCallData :=
  ToolCallData.mk "c1" (ToolCallFunction.mk "t" "\x7b\x7d")

/-- A model provider that requests the same tool call on every iteration
and never produces text content. -/
def c4complete : Nat → List Msg → Except String ModelResp :=
  fun _ _ => .ok (ModelResp.mk none [c4call])

/-- An external runtime whose every invocation succeeds with a text
result. -/
def okRuntime : String → String → List (String × String) →
    Except String RawResult :=
  fun _ _ _ => .ok (RawResult.attrText "ok")

/-- The per-call executor of the dispatch loop: `execute_single_tool_call`
against a mapping that owns tool `t`. -/
def c4exec : ToolCallData → Except String String :=
  fun tc => execute_single_tool_call jsonLoadsFlat okRuntime tc [("t", "s1")]

/-- The complete chat request run for the always-tool-calls provider. -/
def c4run : ChatOutcome :=
  conversation_chat_loop c4window c4complete c4exec [userMsg "hi"]

/-- A tool call whose arguments string is the malformed JSON text `"\x7b"`. -/
def badArgsCall : ToolCallData :=
  ToolCallData.mk "c9" (ToolCallFunction.mk "t" "\x7b")

/-- A registry in which every server id resolves to a running server. -/
def allRunning : String → Option ServerInfo :=
  fun _ => some (ServerInfo.mk "running")

/-- A registry in which every server declares one tool named `t`. -/
def declaresToolT : String → Except Unit (List MCPTool) :=
  fun _ => .ok [MCPTool.mk "t" none none]

/-- Did the executor return normally (Python: no exception escaped)? -/
def exceptIsOk {ε α : Type} : Except ε α → Bool
  | .ok _ => true
  | .error _ => false

/-- Whether an enabled tool resolves during `prepare_tools_for_llm`: its
server exists and is running, its tool listing succeeds, and the listing
contains a tool with the enabled name. -/
def resolvesTool (get_server : String → Option ServerInfo)
    (get_server_tools : String → Except Unit (List MCPTool))
    (et : EnabledTool) : Bool :=
  match get_server et.server_id with
  | none => false
  | some srv =>
    srv.status == "running" &&
      (match get_server_tools et.server_id with
       | .error _ => false
       | .ok ts => (ts.find? (fun t => t.name == et.tool_name)).isSome)

/-!
Claim theorems.
-/

/-- C1: the spec says that when an assistant message with a non-empty
tool-call list is scanned while the pending set is already non-empty, the
previously kept assistant-with-tool_calls message is discarded before the
new one is kept.  Evaluating the embedded scan on
`[assistant issuing a, assistant issuing b, tool b]` shows the code keeps
the first assistant message even though its call `a` is never answered:
only the pending set is reset (token_counter.py line 113), no removal
happens. -/
theorem c1_stale_assistant_survives :
    verify_tool_integrity [asstMsg ["a"], asstMsg ["b"], toolMsg "b"]
      = [asstMsg ["a"], asstMsg ["b"], toolMsg "b"] := by decide

/-- C2: the spec scenario `[assistant issuing a and b, tool a, user]`
requires repair to drop both the assistant message and the `a` response.
Evaluating the embedded scan shows the code pops only the assistant
message and keeps the now-orphaned tool response, so incomplete groups are
NOT removed as whole units. -/
theorem c2_partial_group_left_behind :
    verify_tool_integrity [asstMsg ["a", "b"], toolMsg "a", userMsg "u"]
      = [toolMsg "a", userMsg "u"] := by decide

/-- C3: repair is claimed idempotent.  On `[assistant issuing a and b,
tool a]` the end-of-scan removal pops the assistant message but keeps its
partial response, so the first pass returns `[tool a]` and a second pass
drops the orphan, giving a different (empty) result. -/
theorem c3_repair_not_idempotent :
    verify_tool_integrity
        (verify_tool_integrity [asstMsg ["a", "b"], toolMsg "a"])
      ≠ verify_tool_integrity [asstMsg ["a", "b"], toolMsg "a"] := by decide

/-- C4: the spec says reaching the iteration ceiling without a final answer
fails the whole request fatally with no partial result.  Running the
embedded endpoint loop against a provider that requests a tool call on all
50 iterations shows the request instead SUCCEEDS, reporting the last
assistant-with-tool_calls message as the final assistant message: line 184
of chat_endpoints.py assigns `assistant_message` in the tool-call branch,
so the `if not assistant_message` guard never fires in this scenario. -/
theorem c4_exhausted_loop_reports_success :
    c4run.isFatal = false ∧
      c4run.finalAssistant.bind Msg.tool_calls = some [some "c1"] := by
  constructor
  · decide
  · decide

/-- C5: the claim says the executor never raises, even on malformed input.
Evaluating the embedded executor on a tool call whose arguments string is
the malformed JSON text `"\x7b"` shows the parse failure escapes:
`json.loads` on line 149 of tool_execution.py runs outside every
try block. -/
theorem c5_counterexample_malformed_args_raise :
    execute_single_tool_call jsonLoadsFlat okRuntime badArgsCall [("t", "s1")]
      = Except.error "JSONDecodeError" := by rfl

/-- C5 (amended): the executor raises exactly when parsing the arguments
fails; once the arguments parse, every further failure (unknown or falsy
server id, runtime exception or timeout) is returned as a normal
structured payload. -/
theorem c5_raises_iff_parse_fails
    (parse : String → Option (List (String × String)))
    (invoke : String → String → List (String × String) →
      Except String RawResult)
    (tc : ToolCallData) (mapping : List (String × String)) :
    exceptIsOk (execute_single_tool_call parse invoke tc mapping)
      = (parse tc.function.arguments).isSome := by
  unfold execute_single_tool_call
  cases hp : parse tc.function.arguments with
  | none => simp [exceptIsOk]
  | some args =>
    cases hs : (dictGet mapping tc.function.name).filter (fun s => s != "") with
    | none => simp [hs, exceptIsOk]
    | some server_id =>
      cases hi : invoke server_id tc.function.name
          (filter_context_arguments args) with
      | ok raw => simp [hs, hi, exceptIsOk]
      | error e => simp [hs, hi, exceptIsOk]

/-- `d[k] = v` then `d.get(k)` yields `v`. -/
theorem dictGet_dictSet_self {α : Type} (d : List (String × α)) (k : String)
    (v : α) : dictGet (dictSet d k v) k = some v := by
  induction d with
  | nil => simp [dictSet, dictGet, List.find?_cons]
  | cons p rest ih =>
    by_cases hp : p.1 = k
    · simp [dictSet, dictGet, List.find?_cons, hp]
    · simpa [dictSet, dictGet, List.find?_cons, hp] using ih

/-- `d[k] = v` leaves `d.get(n)` unchanged for `n ≠ k`. -/
theorem dictGet_dictSet_ne {α : Type} (d : List (String × α)) (k n : String)
    (v : α) (h : n ≠ k) : dictGet (dictSet d k v) n = dictGet d n := by
  have hkn : k ≠ n := Ne.symm h
  induction d with
  | nil => simp [dictSet, dictGet, List.find?_cons, hkn]
  | cons p rest ih =>
    by_cases hp : p.1 = k
    · simp [dictSet, dictGet, List.find?_cons, hp, hkn]
    · by_cases hn : p.1 = n
      · simp [dictSet, dictGet, List.find?_cons, hp, hn, h]
      · simpa [dictSet, dictGet, List.find?_cons, hp, hn] using ih

/-- One step of `prepare_tools_for_llm` writes the mapping at the enabled
name exactly when the enabled tool resolves, and otherwise leaves every
lookup unchanged. -/
theorem prepareToolsStep_dictGet (get_server : String → Option ServerInfo)
    (get_server_tools : String → Except Unit (List MCPTool))
    (acc : List ToolForLLM × List (String × String)) (et : EnabledTool)
    (n : String) :
    dictGet (prepareToolsStep get_server get_server_tools acc et).2 n
      = if et.tool_name == n && resolvesTool get_server get_server_tools et
        then some et.server_id else dictGet acc.2 n := by
  unfold prepareToolsStep resolvesTool
  cases hsv : get_server et.server_id with
  | none => simp
  | some srv =>
    by_cases hst : srv.status = "running"
    · cases hts : get_server_tools et.server_id with
      | error e => simp [hst]
      | ok ts =>
        cases hfd : ts.find? (fun t => t.name == et.tool_name) with
        | none => simp [hst, hfd]
        | some t =>
          have hname : t.name = et.tool_name := by
            simpa using List.find?_some hfd
          simp only [hfd, hst, hname]
          by_cases hn : et.tool_name = n
          · simp [hn, dictGet_dictSet_self]
          · simp [hn, dictGet_dictSet_ne acc.2 et.tool_name n et.server_id
              (fun hh => hn hh.symm)]
    · simp [hst]

/-- Appending in front preserves a known last element. -/
theorem getLast?_cons_of_some {α : Type} (a : α) {l : List α} {e : α}
    (h : l.getLast? = some e) : (a :: l).getLast? = some e := by
  cases l with
  | nil => simp at h
  | cons b t => rw [List.getLast?_cons_cons]; exact h

/-- The name-to-server mapping accumulated by the fold of
`prepare_tools_for_llm`: a lookup returns the server id of the LAST
enabled tool that resolved the name, falling back to the accumulator. -/
theorem prepare_fold_mapping_last (get_server : String → Option ServerInfo)
    (get_server_tools : String → Except Unit (List MCPTool)) (n : String) :
    ∀ (l : List EnabledTool) (acc : List ToolForLLM × List (String × String)),
      dictGet ((l.foldl (prepareToolsStep get_server get_server_tools) acc)).2 n
        = match (l.filter (fun et =>
              et.tool_name == n &&
                resolvesTool get_server get_server_tools et)).getLast? with
          | some et => some et.server_id
          | none => dictGet acc.2 n := by
  intro l
  induction l with
  | nil => intro acc; simp
  | cons et l ih =>
    intro acc
    rw [List.foldl_cons, ih]
    by_cases hp : (et.tool_name == n &&
        resolvesTool get_server get_server_tools et) = true
    · simp only [List.filter_cons, hp, if_true]
      cases hxs : (l.filter (fun et => et.tool_name == n &&
          resolvesTool get_server get_server_tools et)).getLast? with
      | some e => simp only [hxs, getLast?_cons_of_some et hxs]
      | none =>
        rw [List.getLast?_eq_none_iff.mp hxs]
        simp [prepareToolsStep_dictGet, hp]
    · have hp' : (et.tool_name == n &&
          resolvesTool get_server get_server_tools et) = false := by
        simpa using hp
      simp only [List.filter_cons, hp', Bool.false_eq_true, if_false]
      cases hxs : (l.filter (fun et => et.tool_name == n &&
          resolvesTool get_server get_server_tools et)).getLast? with
      | some e => simp [hxs]
      | none => simp [hxs, prepareToolsStep_dictGet, hp']

/-- C6 (amended): when the same tool name resolves on more than one enabled
server, the LAST resolution wins — the name-to-server mapping returned by
`prepare_tools_for_llm` maps each name to the server id of the last enabled
tool (in enabled-tool order) that resolved it, because line 95 of
tool_execution.py overwrites the dict entry; the `break` only limits the
scan within one server's declared tool list. -/
theorem c6_duplicate_name_keeps_last_mapping
    (get_server : String → Option ServerInfo)
    (get_server_tools : String → Except Unit (List MCPTool))
    (enabled_tools : List EnabledTool) (n : String) :
    dictGet (prepare_tools_for_llm get_server get_server_tools
        enabled_tools).2 n
      = ((enabled_tools.filter (fun et =>
            et.tool_name == n &&
              resolvesTool get_server get_server_tools et)).getLast?).map
          EnabledTool.server_id := by
  unfold prepare_tools_for_llm
  rw [prepare_fold_mapping_last]
  cases hxs : (enabled_tools.filter (fun et => et.tool_name == n &&
      resolvesTool get_server get_server_tools et)).getLast? with
  | some e => simp
  | none => simp [dictGet]

/-- C6 (counterexample): with tool name `t` enabled on running servers `s1`
and then `s2`, both declaring `t`, the claim requires the mapping to keep
the first resolution `s1`; evaluating the embedded code shows the mapping
is `s2`, the last resolution. -/
theorem c6_counterexample_first_mapping_overwritten :
    dictGet (prepare_tools_for_llm allRunning declaresToolT
        [EnabledTool.mk "s1" "t", EnabledTool.mk "s2" "t"]).2 "t"
      = some "s2" ∧ ("s2" : String) ≠ "s1" := by
  constructor
  · rfl
  · decide

/-- C7 (counterexample): on the empty message sequence,
`apply_rolling_window` returns token count 0 through its early return
(token_counter.py line 70), while `count_message_tokens` of the returned
empty sequence is the 3 priming tokens — so the returned count does not
equal `countTokens` of the returned messages on this input. -/
theorem c7_counterexample_empty_input :
    (apply_rolling_window String.length (fun _ => "") none none []).2
      ≠ count_message_tokens String.length (fun _ => "")
          (apply_rolling_window String.length (fun _ => "") none none []).1 := by
  decide

/-- C7 (amended): for every NON-EMPTY input and every budget
configuration, the second component returned by `apply_rolling_window`
equals `count_message_tokens` of the returned message sequence (same
encoding); only the empty input takes the early return with count 0
instead of the 3 priming tokens. -/
theorem c7_token_count_matches_returned_messages (enc : String → Nat)
    (dumps : List ToolCallEntry → String) (max_tokens max_messages : Option Nat)
    (messages : List Msg) (h : messages ≠ []) :
    (apply_rolling_window enc dumps max_tokens max_messages messages).2
      = count_message_tokens enc dumps
          (apply_rolling_window enc dumps max_tokens max_messages messages).1 := by
  have hne : messages.isEmpty = false := by
    simpa using h
  simp [apply_rolling_window, hne]

/-- C7 witness: the amended theorem applied at a concrete non-empty input
with both budgets set. -/
theorem c7_witness :
    ([userMsg "hi"] : List Msg) ≠ [] ∧
    (apply_rolling_window String.length (fun _ => "") (some 100) (some 5)
        [userMsg "hi"]).2
      = count_message_tokens String.length (fun _ => "")
          (apply_rolling_window String.length (fun _ => "") (some 100) (some 5)
            [userMsg "hi"]).1 :=
  ⟨by decide,
    c7_token_count_matches_returned_messages String.length (fun _ => "")
      (some 100) (some 5) [userMsg "hi"] (by decide)⟩

/-- The history loop of `prepare_messages` appends exactly the projected
stored messages, in order. -/
theorem prepare_history_foldl :
    ∀ (l : List StoredMsg) (acc : List Msg),
      l.foldl (fun acc m => acc ++ [projStoredMsg m]) acc
        = acc ++ l.map projStoredMsg := by
  intro l
  induction l with
  | nil => intro acc; simp
  | cons m l ih => intro acc; rw [List.foldl_cons, ih]; simp

/-- C8: `prepare_messages` fails exactly when no conversation exists for
the id, and otherwise returns the stored history (projected to role and
content) in its original order followed by exactly one new user message
with the given text, together with the enabled-tool list unchanged and
the built system prompt.  The function reads the store and mutates
nothing. -/
theorem c8_prepare_messages_spec (load : String → Option Conversation)
    (conversation_id new_user_message : String) :
    prepare_messages load conversation_id new_user_message
      = match load conversation_id with
        | none => none
        | some conv =>
          some (buildSystemPrompt conv,
            conv.messages.map projStoredMsg ++ [userMsg new_user_message],
            conv.enabled_tools) := by
  cases h : load conversation_id with
  | none => simp [prepare_messages, h]
  | some conv => simp [prepare_messages, h, prepare_history_foldl]

/-- `count_message_tokens` as a sum of per-message costs. -/
theorem count_message_tokens_eq_sum (enc : String → Nat)
    (dumps : List ToolCallEntry → String) (messages : List Msg) :
    count_message_tokens enc dumps messages
      = (messages.map (msgTokens enc dumps)).sum + 3 := by
  unfold count_message_tokens
  have aux : ∀ (l : List Msg) (a : Nat),
      l.foldl (fun acc m => acc + msgTokens enc dumps m) a
        = a + (l.map (msgTokens enc dumps)).sum := by
    intro l
    induction l with
    | nil => intro a; simp
    | cons m l ih => intro a; rw [List.foldl_cons, ih]; simp; omega
  rw [aux]
  omega

/-- C9: `count_message_tokens` is monotone in message content: replacing
one message's content string by an extension of it (all other fields and
messages unchanged) never decreases the count, for every encoding that is
monotone under string extension (the per-message cost sums the encoded
lengths of the non-null fields, with content contributing positively). -/
theorem c9_count_tokens_monotone_in_content (enc : String → Nat)
    (dumps : List ToolCallEntry → String) (pre post : List Msg) (m : Msg)
    (c ext : String) (hmono : ∀ s t : String, enc s ≤ enc (s ++ t))
    (hc : m.content = some c) :
    count_message_tokens enc dumps (pre ++ m :: post)
      ≤ count_message_tokens enc dumps
          (pre ++ { m with content := some (c ++ ext) } :: post) := by
  rw [count_message_tokens_eq_sum, count_message_tokens_eq_sum]
  simp only [List.map_append, List.sum_append, List.map_cons, List.sum_cons]
  have hm : msgTokens enc dumps m
      ≤ msgTokens enc dumps { m with content := some (c ++ ext) } := by
    unfold msgTokens
    have := hmono c ext
    simp only [hc]
    omega
  omega

/-- C9 witness: the theorem applied with the string-length encoding (which
is monotone under extension) at a concrete one-message list. -/
theorem c9_witness :
    ((∀ s t : String, String.length s ≤ String.length (s ++ t)) ∧
      (userMsg "hi").content = some "hi") ∧
    count_message_tokens String.length (fun _ => "") ([] ++ userMsg "hi" :: [])
      ≤ count_message_tokens String.length (fun _ => "")
          ([] ++ { userMsg "hi" with content := some ("hi" ++ "!") } :: []) :=
  have hlen : ∀ s t : String, String.length s ≤ String.length (s ++ t) :=
    fun s t => by rw [String.length_append]; exact Nat.le_add_right _ _
  ⟨⟨hlen, rfl⟩,
    c9_count_tokens_monotone_in_content String.length (fun _ => "") [] []
      (userMsg "hi") "hi" "!" hlen rfl⟩

/-- C10 (counterexample): with the id `a` issued by two assistant messages,
both tool responses survive the scan, so "each tool-call id is answered by
at most one surviving tool message" is false as a global statement about
the output. -/
theorem c10_counterexample_duplicate_id_across_groups :
    verify_tool_integrity
        [asstMsg ["a"], toolMsg "a", asstMsg ["a"], toolMsg "a"]
      = [asstMsg ["a"], toolMsg "a", asstMsg ["a"], toolMsg "a"] ∧
    toolRespCount "a"
        (verify_tool_integrity
          [asstMsg ["a"], toolMsg "a", asstMsg ["a"], toolMsg "a"]) = 2 := by
  constructor
  · decide
  · decide

/-- The backwards removal loop only deletes, so it is a sublist of its
input. -/
theorem popLast_sublist (l : List Msg) :
    (popLastAsstWithCalls l).Sublist l := by
  have h := (List.eraseP_sublist (p := Msg.isAsstWithCalls) l.reverse).reverse
  simpa using h

/-- Counting any predicate can only go down under the backwards removal. -/
theorem countP_popLast_le (p : Msg → Bool) (l : List Msg) :
    (popLastAsstWithCalls l).countP p ≤ l.countP p :=
  (popLast_sublist l).countP_le p

/-- Appending a non-matching message leaves a response count unchanged. -/
theorem toolRespCount_append_not (c : String) (v : List Msg) (m : Msg)
    (h : isToolRespFor c m = false) :
    toolRespCount c (v ++ [m]) = toolRespCount c v := by
  simp [toolRespCount, List.countP_append, List.countP_cons, h]

/-- Appending a message with a truthy id keeps the zero bad-tool count. -/
theorem countP_badTool_append_not (v : List Msg) (m : Msg)
    (h : badTool m = false) (h0 : v.countP badTool = 0) :
    (v ++ [m]).countP badTool = 0 := by
  simp [List.countP_append, List.countP_cons, h, h0]

/-- Dropping the pending indicator from the invariant. -/
theorem toolRespCount_le_of_inv {c : String} {v : List Msg}
    {act : List String} {b : Nat}
    (h1 : toolRespCount c v + (if c ∈ act then 1 else 0) ≤ b) :
    toolRespCount c v ≤ b := by
  by_cases h : c ∈ act <;> simp [h] at h1 <;> omega

/-- One scan step preserves the response-count invariant: the surviving
responses for `c` plus the pending occurrence of `c` grow by at most the
number of issuers consumed, and no kept tool message ever has a falsy id. -/
theorem c10_step (c : String) (s : VTIState) (m : Msg) (b : Nat)
    (h1 : toolRespCount c s.verified + (if c ∈ s.active then 1 else 0) ≤ b)
    (h2 : s.verified.countP badTool = 0) :
    toolRespCount c (vtiStep s m).verified
        + (if c ∈ (vtiStep s m).active then 1 else 0)
      ≤ b + (if asstIssue c m then 1 else 0) ∧
    (vtiStep s m).verified.countP badTool = 0 := by
  have h1' : toolRespCount c s.verified ≤ b := toolRespCount_le_of_inv h1
  unfold vtiStep
  by_cases hA : (m.role == some "assistant") = true
  · have hroleA : m.role = some "assistant" := by simpa using hA
    have hnotool : isToolRespFor c m = false := by
      simp [isToolRespFor, hroleA]
    have hnobad : badTool m = false := by
      simp [badTool, hroleA]
    rw [if_pos hA]
    rcases htc : m.tool_calls with _ | tl
    · have hissue : asstIssue c m = false := by simp [asstIssue, hroleA, htc]
      by_cases hemp : s.active.isEmpty = true
      · rw [if_pos hemp]
        refine ⟨?_, countP_badTool_append_not _ _ hnobad h2⟩
        rw [toolRespCount_append_not c _ _ hnotool, hissue]
        simpa using h1
      · rw [if_neg hemp]
        refine ⟨?_, countP_badTool_append_not _ _ hnobad
          (Nat.le_zero.mp (h2 ▸ countP_popLast_le badTool s.verified))⟩
        rw [toolRespCount_append_not c _ _ hnotool, hissue]
        simpa using le_trans (countP_popLast_le _ s.verified) h1'
    · cases tl with
      | nil =>
        have hissue : asstIssue c m = false := by
          simp [asstIssue, hroleA, htc]
        by_cases hemp : s.active.isEmpty = true
        · rw [if_pos hemp]
          refine ⟨?_, countP_badTool_append_not _ _ hnobad h2⟩
          rw [toolRespCount_append_not c _ _ hnotool, hissue]
          simpa using h1
        · rw [if_neg hemp]
          refine ⟨?_, countP_badTool_append_not _ _ hnobad
            (Nat.le_zero.mp (h2 ▸ countP_popLast_le badTool s.verified))⟩
          rw [toolRespCount_append_not c _ _ hnotool, hissue]
          simpa using le_trans (countP_popLast_le _ s.verified) h1'
      | cons tc tcs =>
        have hissue : asstIssue c m
            = decide (c ∈ idsOfToolCalls (tc :: tcs)) := by
          simp [asstIssue, hroleA, htc]
        refine ⟨?_, countP_badTool_append_not _ _ hnobad h2⟩
        rw [toolRespCount_append_not c _ _ hnotool, hissue]
        by_cases hcm : c ∈ idsOfToolCalls (tc :: tcs)
        · simp [hcm]
          omega
        · simp [hcm, h1']
  · have hA' : (m.role == some "assistant") = false := by simpa using hA
    rw [if_neg hA]
    by_cases hT : (m.role == some "tool") = true
    · have hroleT : m.role = some "tool" := by simpa using hT
      have hissue : asstIssue c m = false := by
        simp [asstIssue, hroleT]
      rw [if_pos hT, hissue]
      rcases hid : m.tool_call_id with _ | tid
      · exact ⟨by simpa using h1, h2⟩
      · dsimp only
        by_cases hcnd : tid ≠ "" ∧ tid ∈ s.active
        · rw [if_pos hcnd]
          have hbad : badTool m = false := by
            simp [badTool, hroleT, hid, hcnd.1]
          refine ⟨?_, countP_badTool_append_not _ _ hbad h2⟩
          by_cases hct : c = tid
          · subst hct
            have hresp : isToolRespFor c m = true := by
              simp [isToolRespFor, hroleT, hid]
            have hmemf : c ∉ s.active.filter (· ≠ c) := by
              simp [List.mem_filter]
            have hcount : toolRespCount c (s.verified ++ [m])
                = toolRespCount c s.verified + 1 := by
              simp [toolRespCount, List.countP_append, List.countP_cons, hresp]
            rw [if_pos hcnd.2] at h1
            rw [hcount, if_neg hmemf]
            simpa using h1
          · have hresp : isToolRespFor c m = false := by
              simp [isToolRespFor, hroleT, hid, Ne.symm hct]
            have hmemf : (c ∈ s.active.filter (· ≠ tid)) ↔ c ∈ s.active := by
              simp [List.mem_filter, hct]
            rw [toolRespCount_append_not c _ _ hresp]
            by_cases hact : c ∈ s.active
            · simp only [hmemf.mpr hact, if_pos, hact] at h1 ⊢
              simpa using h1
            · have : c ∉ s.active.filter (· ≠ tid) := fun hh => hact (hmemf.mp hh)
              simp only [this, hact, if_neg, if_false] at h1 ⊢
              simpa using h1
        · rw [if_neg hcnd]
          exact ⟨by simpa using h1, h2⟩
    · rw [if_neg hT]
      have hT' : (m.role == some "tool") = false := by simpa using hT
      have hnotool : isToolRespFor c m = false := by
        simp only [isToolRespFor, hT', Bool.false_and]
      have hnobad : badTool m = false := by
        simp only [badTool, hT', Bool.false_and]
      have hissue : asstIssue c m = false := by
        simp only [asstIssue, hA', Bool.false_and]
      by_cases hU : (m.role == some "user") = true
      · rw [if_pos hU, hissue]
        by_cases hemp : s.active.isEmpty = true
        · rw [if_pos hemp]
          refine ⟨?_, countP_badTool_append_not _ _ hnobad h2⟩
          rw [toolRespCount_append_not c _ _ hnotool]
          simpa using h1
        · rw [if_neg hemp]
          refine ⟨?_, countP_badTool_append_not _ _ hnobad
            (Nat.le_zero.mp (h2 ▸ countP_popLast_le badTool s.verified))⟩
          rw [toolRespCount_append_not c _ _ hnotool]
          simpa using le_trans (countP_popLast_le _ s.verified) h1'
      · rw [if_neg hU, hissue]
        refine ⟨?_, countP_badTool_append_not _ _ hnobad h2⟩
        rw [toolRespCount_append_not c _ _ hnotool]
        simpa using h1

/-- The invariant carried through the whole forward scan. -/
theorem c10_fold (c : String) :
    ∀ (l : List Msg) (s : VTIState) (b : Nat),
      toolRespCount c s.verified + (if c ∈ s.active then 1 else 0) ≤ b →
      s.verified.countP badTool = 0 →
      toolRespCount c (l.foldl vtiStep s).verified
          + (if c ∈ (l.foldl vtiStep s).active then 1 else 0)
        ≤ b + asstIssueCount c l ∧
      (l.foldl vtiStep s).verified.countP badTool = 0 := by
  intro l
  induction l with
  | nil =>
    intro s b h1 h2
    exact ⟨by simpa [asstIssueCount] using h1, h2⟩
  | cons m l ih =>
    intro s b h1 h2
    rw [List.foldl_cons]
    have hstep := c10_step c s m b h1 h2
    have hrest := ih (vtiStep s m) (b + (if asstIssue c m then 1 else 0))
      hstep.1 hstep.2
    have hcnt : asstIssueCount c (m :: l)
        = asstIssueCount c l + (if asstIssue c m then 1 else 0) := by
      simp [asstIssueCount, List.countP_cons]
    refine ⟨?_, hrest.2⟩
    rw [hcnt]
    by_cases hi : asstIssue c m = true
    · simp only [hi, if_true] at hrest ⊢
      omega
    · have hi' : asstIssue c m = false := by simpa using hi
      simp only [hi', Bool.false_eq_true, if_false] at hrest ⊢
      omega

/-- C10 (amended): in the output of repair, every surviving tool message
has a truthy `tool_call_id`, and each tool-call id `c` is answered by at
most one surviving tool message PER ASSISTANT MESSAGE ISSUING `c`: the
number of surviving responses for `c` never exceeds the number of input
assistant messages whose tool-call list contains `c` (so when a single
assistant message issues `c`, at most one response for `c` survives — a
later duplicate is dropped because the id leaves the pending set at its
first match, and responses with absent or empty ids are always dropped). -/
theorem c10_at_most_one_response_per_issuer (messages : List Msg)
    (c : String) :
    toolRespCount c (verify_tool_integrity messages)
        ≤ asstIssueCount c messages ∧
    (verify_tool_integrity messages).countP badTool = 0 := by
  have h := c10_fold c messages ⟨[], []⟩ 0
    (by simp [toolRespCount]) (by simp)
  unfold verify_tool_integrity
  cases hb : (messages.foldl vtiStep ⟨[], []⟩).active.isEmpty with
  | true =>
    simp only [hb, if_true]
    refine ⟨?_, h.2⟩
    have h1 := h.1
    by_cases hc : c ∈ (messages.foldl vtiStep ⟨[], []⟩).active
    · simp only [hc, if_pos] at h1; omega
    · simpa [hc] using h1
  | false =>
    simp only [hb, Bool.false_eq_true, if_false]
    constructor
    · refine le_trans (countP_popLast_le _ _) ?_
      have h1 := h.1
      simp only [toolRespCount] at h1 ⊢
      by_cases hc : c ∈ (messages.foldl vtiStep ⟨[], []⟩).active
      · simp only [hc, if_pos] at h1; omega
      · simp only [hc, if_neg, if_false] at h1; omega
    · exact Nat.le_zero.mp (h.2 ▸ countP_popLast_le badTool _)
